import Mathlib

/-!
Verification of the AgroTech-Plus cross-cutting request-handling layer:
soft-delete interception (src/lib/soft-delete.ts), fixed-window rate
limiting (src/lib/rate-limit.ts), API version routing
(src/lib/api-versioning.ts), the tiered cache (CacheService), and the
CSRF guard, shallow-embedded as executable Lean definitions.
-/

/-! ## Soft-delete interceptor (src/lib/soft-delete.ts) -/

/-- SOFT_DELETE_MODELS from src/lib/soft-delete.ts: the model names declared
to support soft delete. -/
def SOFT_DELETE_MODELS : List String :=
  ["User", "Customer", "Farmer", "Product", "Order", "OrderItem", "Address",
   "ProductReview", "Subscription"]

/-- supportsSoftDelete from src/lib/soft-delete.ts: membership in
SOFT_DELETE_MODELS. -/
def supportsSoftDelete (modelName : String) : Bool :=
  SOFT_DELETE_MODELS.contains modelName

/-- An explicit deletedAt condition a caller may put in a where object:
the Prisma clause deletedAt: null, or deletedAt: not-null. -/
inductive DeletedAtCond
| isNull
| notNull
deriving DecidableEq

/-- A Prisma where-criteria object as the middleware inspects it: an optional
equality condition on the record id (standing for all criteria other than
deletedAt) and an optional explicit deletedAt condition.  `deletedAt = none`
models the deletedAt key being undefined in the JS object. -/
structure WhereClause where
  idEq : Option Nat
  deletedAt : Option DeletedAtCond
deriving DecidableEq

/-- The data object the soft-delete middleware writes: deletedAt set to a
timestamp (new Date() modelled as a Nat clock value). -/
inductive UpdateData
| setDeletedAt (t : Nat)
deriving DecidableEq

/-- params.args of a Prisma middleware invocation: the where object may be
undefined (none), and data is the update payload. -/
structure QueryArgs where
  whereArg : Option WhereClause
  data : Option UpdateData
deriving DecidableEq

/-- The Prisma actions the soft-delete middleware distinguishes. -/
inductive PrismaAction
| findUnique
| findFirst
| findMany
| count
| aggregate
| delete
| deleteMany
| update
| updateMany
deriving DecidableEq

/-- The params object passed through prisma.$use middleware. -/
structure PrismaParams where
  model : String
  action : PrismaAction
  args : QueryArgs
deriving DecidableEq

/-- The first middleware installed by setupSoftDeleteMiddleware
(src/lib/soft-delete.ts lines 41-72): on soft-delete models it converts
delete into update and deleteMany into updateMany, setting
args.data = deletedAt-now; the two conversions are sequential if-statements
exactly as in the source, and the where criteria are never touched. -/
def deleteRewriteMiddleware (now : Nat) (p : PrismaParams) : PrismaParams :=
  if supportsSoftDelete p.model = false then p
  else
    let p1 :=
      if p.action = PrismaAction.delete then
        { p with action := PrismaAction.update,
                 args := { p.args with data := some (UpdateData.setDeletedAt now) } }
      else p
    if p1.action = PrismaAction.deleteMany then
      { p1 with action := PrismaAction.updateMany,
                args := { p1.args with data := some (UpdateData.setDeletedAt now) } }
    else p1

/-- The second middleware installed by setupSoftDeleteMiddleware
(src/lib/soft-delete.ts lines 75-120): for findUnique and findFirst it
replaces args.where by the spread of the old where with deletedAt set to
null (overwriting any existing deletedAt key); for findMany, count and
aggregate it sets where.deletedAt to null only when the key is undefined,
creating the where object when absent. -/
def readFilterMiddleware (p : PrismaParams) : PrismaParams :=
  if supportsSoftDelete p.model = false then p
  else if p.action = PrismaAction.findUnique ∨ p.action = PrismaAction.findFirst then
    let w := p.args.whereArg.getD { idEq := none, deletedAt := none }
    { p with args := { p.args with
        whereArg := some { w with deletedAt := some DeletedAtCond.isNull } } }
  else if p.action = PrismaAction.findMany ∨ p.action = PrismaAction.count ∨
          p.action = PrismaAction.aggregate then
    match p.args.whereArg with
    | some w =>
      if w.deletedAt = none then
        { p with args := { p.args with
            whereArg := some { w with deletedAt := some DeletedAtCond.isNull } } }
      else p
    | none =>
      { p with args := { p.args with
          whereArg := some { idEq := none, deletedAt := some DeletedAtCond.isNull } } }
  else p

/-- A stored row of a soft-deletable model: its id and its nullable
deletedAt column. -/
structure Row where
  id : Nat
  deletedAt : Option Nat
deriving DecidableEq

/-- Whether a row satisfies a where-criteria object. -/
def rowMatchesWhere (w : WhereClause) (r : Row) : Bool :=
  (match w.idEq with
   | none => true
   | some i => r.id == i) &&
  (match w.deletedAt with
   | none => true
   | some DeletedAtCond.isNull => r.deletedAt.isNone
   | some DeletedAtCond.notNull => r.deletedAt.isSome)

/-- Whether a row satisfies an optional where object (absent matches all). -/
def matchesOpt (w : Option WhereClause) (r : Row) : Bool :=
  match w with
  | none => true
  | some wc => rowMatchesWhere wc r

/-- Apply an update data payload to a row. -/
def applyData (d : Option UpdateData) (r : Row) : Row :=
  match d with
  | none => r
  | some (UpdateData.setDeletedAt t) => { r with deletedAt := some t }

/-- Outcome of executing a Prisma operation against a table: the table after
the operation and the rows returned (for reads). -/
structure DbOutcome where
  db : List Row
  result : List Row
deriving DecidableEq

/-- Executing the (post-middleware) Prisma operation against a table:
reads filter by the where object, delete operations remove matching rows,
update operations apply the data payload to matching rows. -/
def runPrisma (p : PrismaParams) (db : List Row) : DbOutcome :=
  match p.action with
  | PrismaAction.findUnique => { db := db, result := (db.filter (matchesOpt p.args.whereArg)).take 1 }
  | PrismaAction.findFirst => { db := db, result := (db.filter (matchesOpt p.args.whereArg)).take 1 }
  | PrismaAction.findMany => { db := db, result := db.filter (matchesOpt p.args.whereArg) }
  | PrismaAction.count => { db := db, result := db.filter (matchesOpt p.args.whereArg) }
  | PrismaAction.aggregate => { db := db, result := db.filter (matchesOpt p.args.whereArg) }
  | PrismaAction.delete => { db := db.filter (fun r => !(matchesOpt p.args.whereArg r)), result := [] }
  | PrismaAction.deleteMany => { db := db.filter (fun r => !(matchesOpt p.args.whereArg r)), result := [] }
  | PrismaAction.update =>
      { db := db.map (fun r => if matchesOpt p.args.whereArg r then applyData p.args.data r else r),
        result := [] }
  | PrismaAction.updateMany =>
      { db := db.map (fun r => if matchesOpt p.args.whereArg r then applyData p.args.data r else r),
        result := [] }

/-- The deletedAt condition present in the caller's criteria, if any
(undefined where object or undefined deletedAt key are both "no condition"). -/
def callerDeletedAt (args : QueryArgs) : Option DeletedAtCond :=
  match args.whereArg with
  | none => none
  | some w => w.deletedAt

/-- The non-deletedAt part of the caller's criteria, if any. -/
def callerIdEq (args : QueryArgs) : Option Nat :=
  match args.whereArg with
  | none => none
  | some w => w.idEq

/-- C1 counterexample: a findFirst against the declared model User with the
explicit clause deletedAt: not-null has that clause overwritten to
deletedAt: null by the read-filter middleware, so the claim that any
explicit deletedAt clause is preserved unchanged on every read operation
fails at this concrete input. -/
theorem C1_counterexample :
    supportsSoftDelete "User" = true ∧
    callerDeletedAt
      { whereArg := some { idEq := some 7, deletedAt := some DeletedAtCond.notNull },
        data := none } = some DeletedAtCond.notNull ∧
    callerDeletedAt
      (readFilterMiddleware
        { model := "User", action := PrismaAction.findFirst,
          args := { whereArg := some { idEq := some 7, deletedAt := some DeletedAtCond.notNull },
                    data := none } }).args = some DeletedAtCond.isNull := by
  decide

/-- C1 (amended): for findMany, count and aggregate against a declared
soft-delete model the middleware injects deletedAt = null exactly when the
caller supplied no deletedAt condition (preserving the other criteria), and
leaves the criteria untouched when any explicit deletedAt clause is present;
for findUnique and findFirst the middleware always sets deletedAt = null,
overwriting any explicit deletedAt clause while keeping the other criteria. -/
theorem C1_amended_theorem (p : PrismaParams) (hm : supportsSoftDelete p.model = true) :
    ((p.action = PrismaAction.findMany ∨ p.action = PrismaAction.count ∨
      p.action = PrismaAction.aggregate) →
      (callerDeletedAt p.args = none →
        (readFilterMiddleware p).args.whereArg =
          some { idEq := callerIdEq p.args, deletedAt := some DeletedAtCond.isNull }) ∧
      (∀ c, callerDeletedAt p.args = some c → (readFilterMiddleware p).args = p.args)) ∧
    ((p.action = PrismaAction.findUnique ∨ p.action = PrismaAction.findFirst) →
      (readFilterMiddleware p).args.whereArg =
        some { idEq := callerIdEq p.args, deletedAt := some DeletedAtCond.isNull }) := by
  obtain ⟨model, action, args⟩ := p
  obtain ⟨wo, data⟩ := args
  simp only at hm
  constructor
  · rintro (rfl | rfl | rfl) <;>
    · constructor
      · intro hnone
        cases wo with
        | none => simp [readFilterMiddleware, callerIdEq, hm]
        | some w =>
          obtain ⟨ie, da⟩ := w
          simp only [callerDeletedAt] at hnone
          simp [readFilterMiddleware, callerIdEq, hm, hnone]
      · intro c hc
        cases wo with
        | none => simp [callerDeletedAt] at hc
        | some w =>
          obtain ⟨ie, da⟩ := w
          simp only [callerDeletedAt] at hc
          simp [readFilterMiddleware, hm, hc]
  · rintro (rfl | rfl) <;>
    · cases wo with
      | none => simp [readFilterMiddleware, callerIdEq, hm]
      | some w =>
        obtain ⟨ie, da⟩ := w
        simp [readFilterMiddleware, callerIdEq, hm]

/-- C1 witness: instantiating the amended theorem at a findMany on User with
no where object, the injected filter appears. -/
theorem C1_witness :
    (readFilterMiddleware
      { model := "User", action := PrismaAction.findMany,
        args := { whereArg := none, data := none } }).args.whereArg =
      some { idEq := none, deletedAt := some DeletedAtCond.isNull } :=
  ((C1_amended_theorem
      { model := "User", action := PrismaAction.findMany,
        args := { whereArg := none, data := none } }
      (by decide)).1 (Or.inl rfl)).1 rfl

/-- C4: on a declared soft-delete model, delete is rewritten to update and
deleteMany to updateMany, the data payload sets deletedAt to the current
time, the where criteria are unchanged, and executing the rewritten
operation keeps every row physically present (same ids, same table size). -/
theorem C4_theorem (now : Nat) (p : PrismaParams) (db : List Row)
    (hm : supportsSoftDelete p.model = true) :
    (p.action = PrismaAction.delete →
      (deleteRewriteMiddleware now p).action = PrismaAction.update ∧
      (deleteRewriteMiddleware now p).args.data = some (UpdateData.setDeletedAt now) ∧
      (deleteRewriteMiddleware now p).args.whereArg = p.args.whereArg ∧
      (runPrisma (deleteRewriteMiddleware now p) db).db.map Row.id = db.map Row.id) ∧
    (p.action = PrismaAction.deleteMany →
      (deleteRewriteMiddleware now p).action = PrismaAction.updateMany ∧
      (deleteRewriteMiddleware now p).args.data = some (UpdateData.setDeletedAt now) ∧
      (deleteRewriteMiddleware now p).args.whereArg = p.args.whereArg ∧
      (runPrisma (deleteRewriteMiddleware now p) db).db.map Row.id = db.map Row.id) := by
  obtain ⟨model, action, args⟩ := p
  obtain ⟨wo, data⟩ := args
  simp only at hm
  constructor
  · rintro rfl
    have hred : deleteRewriteMiddleware now
        { model := model, action := PrismaAction.delete, args := { whereArg := wo, data := data } } =
        { model := model, action := PrismaAction.update,
          args := { whereArg := wo, data := some (UpdateData.setDeletedAt now) } } := by
      simp [deleteRewriteMiddleware, hm]
    rw [hred]
    refine ⟨rfl, rfl, rfl, ?_⟩
    simp only [runPrisma, List.map_map]
    refine List.map_congr_left ?_
    intro r _
    by_cases hmatch : matchesOpt wo r = true
    · simp [hmatch, applyData]
    · simp [hmatch]
  · rintro rfl
    have hred : deleteRewriteMiddleware now
        { model := model, action := PrismaAction.deleteMany, args := { whereArg := wo, data := data } } =
        { model := model, action := PrismaAction.updateMany,
          args := { whereArg := wo, data := some (UpdateData.setDeletedAt now) } } := by
      simp [deleteRewriteMiddleware, hm]
    rw [hred]
    refine ⟨rfl, rfl, rfl, ?_⟩
    simp only [runPrisma, List.map_map]
    refine List.map_congr_left ?_
    intro r _
    by_cases hmatch : matchesOpt wo r = true
    · simp [hmatch, applyData]
    · simp [hmatch]

/-- C4 witness: a delete of User id 3 against a one-row table becomes an
update that keeps the row present. -/
theorem C4_witness :
    (deleteRewriteMiddleware 1000
      { model := "User", action := PrismaAction.delete,
        args := { whereArg := some { idEq := some 3, deletedAt := none }, data := none } }).action
      = PrismaAction.update ∧
    (runPrisma
      (deleteRewriteMiddleware 1000
        { model := "User", action := PrismaAction.delete,
          args := { whereArg := some { idEq := some 3, deletedAt := none }, data := none } })
      [{ id := 3, deletedAt := none }]).db.map Row.id =
      [{ id := 3, deletedAt := (none : Option Nat) }].map Row.id := by
  have h := C4_theorem 1000
    { model := "User", action := PrismaAction.delete,
      args := { whereArg := some { idEq := some 3, deletedAt := none }, data := none } }
    [{ id := 3, deletedAt := none }] (by decide)
  exact ⟨(h.1 rfl).1, (h.1 rfl).2.2.2⟩

/-- Whether a row satisfies one column/value pair of a hard-delete where
object; only the id column is represented on rows, other columns are
treated as matching. -/
def rowMatchesPair (r : Row) (p : String × Nat) : Bool :=
  if p.1 = "id" then r.id == p.2 else true

/-- Outcome of hardDelete: the boolean the function returns, whether the
raw DELETE query was issued, and the table afterwards. -/
structure HardDeleteOutcome where
  success : Bool
  queryExecuted : Bool
  db : List Row
deriving DecidableEq

/-- hardDelete from src/lib/soft-delete.ts lines 131-179: looks up the model
delegate (present exactly for the declared soft-delete models), throws before
issuing any query when the where object has no keys, otherwise builds a
parameterized DELETE from the column/value pairs and executes it; every
throw is caught and reported as a false return. -/
def hardDelete (model : String) (wh : List (String × Nat)) (db : List Row) : HardDeleteOutcome :=
  if supportsSoftDelete model = false then
    { success := false, queryExecuted := false, db := db }
  else if wh.length = 0 then
    { success := false, queryExecuted := false, db := db }
  else
    { success := true, queryExecuted := true,
      db := db.filter (fun r => !(wh.all (rowMatchesPair r))) }

/-- C5: hardDelete with an empty filter object is rejected before any
delete query is issued: no query executes, the table is unchanged, and the
call returns failure. -/
theorem C5_theorem : ∀ (model : String) (db : List Row),
    hardDelete model [] db = { success := false, queryExecuted := false, db := db } := by
  intro model db
  unfold hardDelete
  split
  · rfl
  · simp

/-! ## API version router (src/lib/api-versioning.ts) -/

/-- SUPPORTED_VERSIONS from src/lib/api-versioning.ts. -/
def SUPPORTED_VERSIONS : List String := ["v1"]

/-- CURRENT_VERSION from src/lib/api-versioning.ts. -/
def CURRENT_VERSION : String := "v1"

/-- isSupportedVersion from src/lib/api-versioning.ts: membership in
SUPPORTED_VERSIONS. -/
def isSupportedVersion (version : String) : Bool :=
  SUPPORTED_VERSIONS.contains version

/-- The request fields getApiVersion inspects; a field is none when the
corresponding header, query parameter or url is undefined. -/
structure ApiRequest where
  xApiVersion : Option String
  acceptVersion : Option String
  queryVersion : Option String
  url : Option String
deriving DecidableEq

/-- JS logical-or of two possibly-undefined strings: the first operand wins
exactly when it is truthy (present and nonempty). -/
def jsOrString (a b : Option String) : Option String :=
  match a with
  | some s => if s = "" then b else some s
  | none => b

/-- JS truthiness of a possibly-undefined string: true when present and
nonempty. -/
def jsTruthy (a : Option String) : Bool :=
  match a with
  | some s => decide (s ≠ "")
  | none => false

/-- Take the maximal leading run of decimal digits of a character list,
returning the digits and the remainder. -/
def takeDigits : List Char → List Char × List Char
  | [] => ([], [])
  | c :: cs =>
    if c.isDigit then
      let p := takeDigits cs
      (c :: p.1, p.2)
    else ([], c :: cs)

/-- Try to match the regex tail v-digits-slash at the head of a character
list, returning the captured group (the letter v followed by the digits). -/
def matchVersionAt (cs : List Char) : Option String :=
  match cs with
  | 'v' :: rest =>
    let p := takeDigits rest
    match p.1, p.2 with
    | [], _ => none
    | ds, '/' :: _ => some (String.mk ('v' :: ds))
    | _, _ => none
  | _ => none

/-- Whether a character list starts with the literal "/api/" followed by a
version segment, returning the captured version. -/
def startsApiAndVersion : List Char → Option String
  | '/' :: 'a' :: 'p' :: 'i' :: '/' :: rest => matchVersionAt rest
  | _ => none

/-- Leftmost match of the path-version regex over a character list, as
String.prototype.match would find it. -/
def findApiVersionInPath : List Char → Option String
  | [] => none
  | c :: cs =>
    match startsApiAndVersion (c :: cs) with
    | some v => some v
    | none => findApiVersionInPath cs

/-- getApiVersion from src/lib/api-versioning.ts lines 26-48: the
x-api-version header or-else the accept-version header, then the version
query parameter, then a path segment matching the version regex, each
accepted only when isSupportedVersion holds; otherwise the current
version. -/
def getApiVersion (req : ApiRequest) : String :=
  if jsTruthy (jsOrString req.xApiVersion req.acceptVersion) &&
     isSupportedVersion ((jsOrString req.xApiVersion req.acceptVersion).getD "") then
    (jsOrString req.xApiVersion req.acceptVersion).getD ""
  else if jsTruthy req.queryVersion && isSupportedVersion (req.queryVersion.getD "") then
    req.queryVersion.getD ""
  else
    match findApiVersionInPath (req.url.getD "").data with
    | some v => if isSupportedVersion v then v else CURRENT_VERSION
    | none => CURRENT_VERSION

/-- The response produced by the versionedHandler dispatcher: the 400-class
unsupported-version rejection, the 501-class not-implemented rejection
(listing the endpoint's own versions), or the invocation of the
version-specific handler with the version headers set. -/
inductive ApiResponse
| badRequest (status : Nat) (error : String) (supportedVersions : List String)
    (currentVersion : String)
| notImplemented (status : Nat) (error : String) (supportedVersions : List String)
| handled (version : String) (xApiVersion : String) (xApiCurrentVersion : String)
    (xApiSupportedVersions : List String)
deriving DecidableEq

/-- versionedHandler from src/lib/api-versioning.ts lines 61-110:
resolves the version, rejects with 400 when unsupported, rejects with 501
when the handlers object has no entry for it, and otherwise sets the
version headers and calls the version-specific handler.  The handlers
object is modelled by the list of versions it has handlers for. -/
def versionedHandler (handlerVersions : List String) (req : ApiRequest) : ApiResponse :=
  if isSupportedVersion (getApiVersion req) = false then
    ApiResponse.badRequest 400 "Unsupported API Version" SUPPORTED_VERSIONS CURRENT_VERSION
  else if handlerVersions.contains (getApiVersion req) = false then
    ApiResponse.notImplemented 501 "Version Not Implemented" handlerVersions
  else
    ApiResponse.handled (getApiVersion req) (getApiVersion req) CURRENT_VERSION SUPPORTED_VERSIONS

/-- Helper: whatever getApiVersion returns is a supported version, because
every resolution source is guarded by isSupportedVersion and the default
CURRENT_VERSION is in SUPPORTED_VERSIONS. -/
theorem getApiVersion_isSupported (req : ApiRequest) :
    isSupportedVersion (getApiVersion req) = true := by
  unfold getApiVersion
  by_cases h1 : (jsTruthy (jsOrString req.xApiVersion req.acceptVersion) &&
      isSupportedVersion ((jsOrString req.xApiVersion req.acceptVersion).getD "")) = true
  · rw [if_pos h1]
    exact ((Bool.and_eq_true _ _).mp h1).2
  · rw [if_neg h1]
    by_cases h2 : (jsTruthy req.queryVersion &&
        isSupportedVersion (req.queryVersion.getD "")) = true
    · rw [if_pos h2]
      exact ((Bool.and_eq_true _ _).mp h2).2
    · rw [if_neg h2]
      cases hfind : findApiVersionInPath (req.url.getD "").data with
      | none => simp only [hfind]; decide
      | some v =>
        simp only [hfind]
        by_cases h3 : isSupportedVersion v = true
        · rw [if_pos h3]; exact h3
        · rw [if_neg h3]; decide

/-- C10: version resolution always returns a member of the supported set,
so the unsupported-version 400 branch of versionedHandler is unreachable
for every request and every handlers object. -/
theorem C10_theorem : ∀ req : ApiRequest,
    isSupportedVersion (getApiVersion req) = true ∧
    ∀ (hv : List String) (s : Nat) (e : String) (sv : List String) (cv : String),
      versionedHandler hv req ≠ ApiResponse.badRequest s e sv cv := by
  intro req
  refine ⟨getApiVersion_isSupported req, ?_⟩
  intro hv s e sv cv
  unfold versionedHandler
  rw [getApiVersion_isSupported req]
  simp only [Bool.true_eq_false, if_false]
  split <;> simp

/-- C3: at the concrete failing input (an explicit X-API-Version header
requesting the unsupported version v2 against an endpoint implementing
only v1), dispatch does not return the documented 400-class rejection:
getApiVersion silently falls back to the default v1 and the request is
served by the v1 handler. -/
theorem C3_code_divergence :
    getApiVersion
      { xApiVersion := some "v2", acceptVersion := none, queryVersion := none,
        url := some "/api/products" } = "v1" ∧
    versionedHandler ["v1"]
      { xApiVersion := some "v2", acceptVersion := none, queryVersion := none,
        url := some "/api/products" } =
      ApiResponse.handled "v1" "v1" "v1" ["v1"] := by
  constructor
  · rfl
  · rfl

/-! ## Rate limiter (src/lib/rate-limit.ts) -/

/-- RateLimitConfig from src/lib/rate-limit.ts (the fields checkRateLimit
reads). -/
structure RateLimitConfig where
  maxRequests : Nat
  windowSeconds : Nat
deriving DecidableEq

/-- RateLimitData from src/lib/rate-limit.ts: the record stored in the
tiered cache under the rate-limit key. -/
structure RateLimitData where
  count : Nat
  resetAt : Nat
deriving DecidableEq

/-- The tiered-cache cell backing one rate-limit key: the stored record if
any (the TTL given to the cache equals the window length, so a present
entry stands for an unexpired stored record and an expired or absent one
is none), and whether cache operations currently throw. -/
structure RLCacheState where
  entry : Option RateLimitData
  failing : Bool
deriving DecidableEq

/-- The object checkRateLimit returns.  remaining is an Int because the
window-reset branch of the source computes maxRequests - 1 without
clamping. -/
structure RateLimitResult where
  allowed : Bool
  remaining : Int
  resetAt : Nat
deriving DecidableEq

/-- A checkRateLimit call's full effect: the returned result, the cache
cell afterwards, and whether the catch branch logged an error. -/
structure RateLimitOutcome where
  res : RateLimitResult
  cache : RLCacheState
  loggedError : Bool
deriving DecidableEq

/-- cacheService.get as checkRateLimit uses it: returns the stored record,
or stores and returns the fetch fallback when the cell is empty; throws
when the cache is failing. -/
def rlCacheGet (st : RLCacheState) (fallback : RateLimitData) :
    Except Unit (RateLimitData × RLCacheState) :=
  if st.failing then Except.error ()
  else
    match st.entry with
    | some d => Except.ok (d, st)
    | none => Except.ok (fallback, { st with entry := some fallback })

/-- cacheService.set as checkRateLimit uses it: overwrites the cell;
throws when the cache is failing. -/
def rlCacheSet (st : RLCacheState) (d : RateLimitData) : Except Unit RLCacheState :=
  if st.failing then Except.error ()
  else Except.ok { st with entry := some d }

/-- checkRateLimit from src/lib/rate-limit.ts lines 75-138: reads the
cached record (fetch fallback count 0, resetAt now + window), resets the
counter to 1 and starts a new window when now is at or past resetAt,
otherwise increments and compares against maxRequests; any cache error is
caught, logged, and turned into a fail-open allowed result. -/
def checkRateLimit (config : RateLimitConfig) (now : Nat) (st : RLCacheState) :
    RateLimitOutcome :=
  let attempt : Except Unit (RateLimitResult × RLCacheState) := do
    let s ← rlCacheGet st { count := 0, resetAt := now + config.windowSeconds * 1000 }
    if s.1.resetAt ≤ now then
      let st2 ← rlCacheSet s.2 { count := 1, resetAt := now + config.windowSeconds * 1000 }
      pure ({ allowed := true, remaining := (config.maxRequests : Int) - 1,
              resetAt := now + config.windowSeconds * 1000 }, st2)
    else
      let st2 ← rlCacheSet s.2 { count := s.1.count + 1, resetAt := s.1.resetAt }
      pure ({ allowed := decide (s.1.count + 1 ≤ config.maxRequests),
              remaining := max 0 ((config.maxRequests : Int) - (s.1.count + 1)),
              resetAt := s.1.resetAt }, st2)
  match attempt with
  | Except.ok r => { res := r.1, cache := r.2, loggedError := false }
  | Except.error _ =>
      { res := { allowed := true, remaining := (config.maxRequests : Int),
                 resetAt := now + config.windowSeconds * 1000 },
        cache := st, loggedError := true }

/-- Running checkRateLimit once per timestamp of a list, threading the
cache cell, collecting the results. -/
def runChecks (config : RateLimitConfig) (st : RLCacheState) :
    List Nat → List RateLimitResult × RLCacheState
  | [] => ([], st)
  | t :: ts =>
    let o := checkRateLimit config t st
    let r := runChecks config o.cache ts
    (o.res :: r.1, r.2)

/-- The results of a run of in-window checks that starts from stored count
k: the i-th result reflects post-increment count k + i + 1. -/
def expectedResults (config : RateLimitConfig) (r : Nat) (k : Nat) : Nat → List RateLimitResult
  | 0 => []
  | n + 1 =>
    { allowed := decide (k + 1 ≤ config.maxRequests),
      remaining := max 0 ((config.maxRequests : Int) - (k + 1)),
      resetAt := r } :: expectedResults config r (k + 1) n

/-- Helper: a non-failing in-window check from stored count k increments
the counter and reports the post-increment count. -/
theorem checkRateLimit_step (config : RateLimitConfig) (t : Nat) (k r : Nat)
    (ht : t < r) :
    checkRateLimit config t { entry := some { count := k, resetAt := r }, failing := false } =
      { res := { allowed := decide (k + 1 ≤ config.maxRequests),
                 remaining := max 0 ((config.maxRequests : Int) - (k + 1)),
                 resetAt := r },
        cache := { entry := some { count := k + 1, resetAt := r }, failing := false },
        loggedError := false } := by
  unfold checkRateLimit rlCacheGet rlCacheSet
  have hnle : ¬ (r ≤ t) := Nat.not_le.mpr ht
  simp [hnle, Bind.bind, Except.bind, pure, Except.pure]

/-- Helper: a whole run of in-window checks from stored count k produces
the expected per-call results and leaves the counter at k plus the number
of calls. -/
theorem runChecks_spec (config : RateLimitConfig) (r : Nat) :
    ∀ (ts : List Nat) (k : Nat), (∀ t ∈ ts, t < r) →
      runChecks config { entry := some { count := k, resetAt := r }, failing := false } ts =
        (expectedResults config r k ts.length,
         { entry := some { count := k + ts.length, resetAt := r }, failing := false }) := by
  intro ts
  induction ts with
  | nil => intro k _; simp [runChecks, expectedResults]
  | cons t ts ih =>
    intro k hts
    have ht : t < r := hts t (List.mem_cons_self t ts)
    have hts' : ∀ u ∈ ts, u < r := fun u hu => hts u (List.mem_cons_of_mem t hu)
    simp only [runChecks, checkRateLimit_step config t k r ht]
    rw [ih (k + 1) hts']
    simp only [expectedResults, List.length_cons]
    have h1 : k + 1 + ts.length = k + (ts.length + 1) := by omega
    rw [h1]

/-- Helper: the first check on an empty cell stores count 1 with window
ending at t0 plus the window length, and allows the request whenever
maxRequests is at least 1 (both the reset branch and the increment branch
produce this same outcome for an empty cell). -/
theorem checkRateLimit_first (config : RateLimitConfig) (t0 : Nat)
    (hmax : 1 ≤ config.maxRequests) :
    checkRateLimit config t0 { entry := none, failing := false } =
      { res := { allowed := true, remaining := (config.maxRequests : Int) - 1,
                 resetAt := t0 + config.windowSeconds * 1000 },
        cache := { entry := some { count := 1, resetAt := t0 + config.windowSeconds * 1000 },
                   failing := false },
        loggedError := false } := by
  unfold checkRateLimit rlCacheGet rlCacheSet
  by_cases hle : t0 + config.windowSeconds * 1000 ≤ t0
  · simp [hle, Bind.bind, Except.bind, pure, Except.pure]
  · simp [hle, Bind.bind, Except.bind, pure, Except.pure]
    omega

/-- Helper: expectedResults indexes to the record for post-increment count
k + i + 1. -/
theorem expectedResults_get (config : RateLimitConfig) (r : Nat) :
    ∀ (n k i : Nat), i < n →
      (expectedResults config r k n).get? i =
        some { allowed := decide (k + i + 1 ≤ config.maxRequests),
               remaining := max 0 ((config.maxRequests : Int) - (k + i + 1)),
               resetAt := r } := by
  intro n
  induction n with
  | zero => intro k i hi; omega
  | succ m ih =>
    intro k i hi
    cases i with
    | zero => simp [expectedResults]
    | succ j =>
      have hj : j < m := by omega
      have := ih (k + 1) j hj
      simp only [expectedResults, List.get?_cons_succ]
      rw [this]
      have h1 : k + 1 + j + 1 = k + (j + 1) + 1 := by omega
      rw [h1]
      have h2 : ((k + 1 : Nat) : Int) + (j : Int) + 1 = (k : Int) + ((j + 1 : Nat) : Int) + 1 := by
        push_cast
        ring
      rw [h2]

/-- Helper: an expired stored record makes checkRateLimit reset the counter
to exactly 1 and start a new window, returning allowed true and
maxRequests - 1 remaining without clamping. -/
theorem checkRateLimit_reset (config : RateLimitConfig) (t k R : Nat) (hR : R ≤ t) :
    checkRateLimit config t { entry := some { count := k, resetAt := R }, failing := false } =
      { res := { allowed := true, remaining := (config.maxRequests : Int) - 1,
                 resetAt := t + config.windowSeconds * 1000 },
        cache := { entry := some { count := 1, resetAt := t + config.windowSeconds * 1000 },
                   failing := false },
        loggedError := false } := by
  unfold checkRateLimit rlCacheGet rlCacheSet
  simp [hR, Bind.bind, Except.bind, pure, Except.pure]

/-- C2 counterexample: with maxRequests = 0 and an expired stored record,
the reset branch stores post-increment count 1 but returns allowed = true
and remaining = -1, while the claimed formulas give
allowed = (1 <= 0) = false and remaining = max(0, 0 - 1) = 0; so the claim
as stated fails at this concrete input. -/
theorem C2_counterexample :
    (checkRateLimit { maxRequests := 0, windowSeconds := 1 } 1000
        { entry := some { count := 0, resetAt := 1000 }, failing := false }).cache.entry =
      some { count := 1, resetAt := 2000 } ∧
    (checkRateLimit { maxRequests := 0, windowSeconds := 1 } 1000
        { entry := some { count := 0, resetAt := 1000 }, failing := false }).res.allowed = true ∧
    decide ((1 : Nat) ≤ (0 : Nat)) = false ∧
    (checkRateLimit { maxRequests := 0, windowSeconds := 1 } 1000
        { entry := some { count := 0, resetAt := 1000 }, failing := false }).res.remaining = -1 ∧
    max 0 ((0 : Int) - 1) = 0 := by
  decide

/-- C2 (amended, first part restricted to maxRequests at least 1): a
non-failing check leaves a stored record whose count is the post-increment
counter, returns allowed equal to count <= maxRequests and remaining equal
to max(0, maxRequests - count), and resets the counter to exactly 1 with a
fresh window whenever now is at or past the stored resetAt; consequently,
starting from an empty window, the first maxRequests requests inside the
window are allowed and the following request is rejected with remaining
0. -/
theorem C2_theorem :
    (∀ (config : RateLimitConfig) (now : Nat) (st : RLCacheState),
       1 ≤ config.maxRequests → st.failing = false →
       ∃ d : RateLimitData,
         (checkRateLimit config now st).cache.entry = some d ∧
         (checkRateLimit config now st).res.allowed = decide (d.count ≤ config.maxRequests) ∧
         (checkRateLimit config now st).res.remaining =
           max 0 ((config.maxRequests : Int) - (d.count : Int)) ∧
         (∀ d0, st.entry = some d0 → d0.resetAt ≤ now →
            d = { count := 1, resetAt := now + config.windowSeconds * 1000 })) ∧
    (∀ (config : RateLimitConfig) (t0 tLast : Nat) (ts : List Nat),
       1 ≤ config.maxRequests →
       ts.length + 1 = config.maxRequests →
       (∀ t ∈ ts, t < t0 + config.windowSeconds * 1000) →
       tLast < t0 + config.windowSeconds * 1000 →
       (∀ i, i < config.maxRequests →
          ∃ res, (runChecks config { entry := none, failing := false }
                    (t0 :: (ts ++ [tLast]))).1.get? i = some res ∧ res.allowed = true) ∧
       (runChecks config { entry := none, failing := false }
          (t0 :: (ts ++ [tLast]))).1.get? config.maxRequests =
         some { allowed := false, remaining := 0,
                resetAt := t0 + config.windowSeconds * 1000 }) := by
  constructor
  · intro config now st hmax hfail
    obtain ⟨entry, failing⟩ := st
    simp only at hfail
    subst hfail
    cases entry with
    | none =>
      rw [checkRateLimit_first config now hmax]
      refine ⟨{ count := 1, resetAt := now + config.windowSeconds * 1000 }, rfl, ?_, ?_, ?_⟩
      · simp [hmax]
      · dsimp only
        push_cast
        omega
      · intro d0 h0
        exact absurd h0 (by simp)
    | some d0 =>
      obtain ⟨k, R⟩ := d0
      by_cases hR : R ≤ now
      · rw [checkRateLimit_reset config now k R hR]
        refine ⟨{ count := 1, resetAt := now + config.windowSeconds * 1000 }, rfl, ?_, ?_, ?_⟩
        · simp [hmax]
        · dsimp only
          push_cast
          omega
        · intro d1 h1' h2'
          rfl
      · have hlt : now < R := Nat.not_le.mp hR
        rw [checkRateLimit_step config now k R hlt]
        refine ⟨{ count := k + 1, resetAt := R }, rfl, rfl, ?_, ?_⟩
        · norm_cast
        · intro d1 h1' h2'
          have : d1 = { count := k, resetAt := R } := by
            injection h1' with h
            exact h.symm
          rw [this] at h2'
          exact absurd h2' hR
  · intro config t0 tLast ts hmax hlen hts hlast
    have hall : ∀ t ∈ ts ++ [tLast], t < t0 + config.windowSeconds * 1000 := by
      intro t htm
      rcases List.mem_append.mp htm with h | h
      · exact hts t h
      · rw [List.mem_singleton.mp h]
        exact hlast
    have hrun : runChecks config { entry := none, failing := false } (t0 :: (ts ++ [tLast])) =
        ({ allowed := true, remaining := (config.maxRequests : Int) - 1,
           resetAt := t0 + config.windowSeconds * 1000 } ::
           expectedResults config (t0 + config.windowSeconds * 1000) 1 (ts ++ [tLast]).length,
         { entry := some { count := 1 + (ts ++ [tLast]).length,
                           resetAt := t0 + config.windowSeconds * 1000 }, failing := false }) := by
      simp only [runChecks, checkRateLimit_first config t0 hmax,
        runChecks_spec config (t0 + config.windowSeconds * 1000) (ts ++ [tLast]) 1 hall]
    constructor
    · intro i hi
      cases i with
      | zero =>
        refine ⟨{ allowed := true, remaining := (config.maxRequests : Int) - 1,
                  resetAt := t0 + config.windowSeconds * 1000 }, ?_, rfl⟩
        rw [hrun]
        rfl
      | succ j =>
        have hj : j < (ts ++ [tLast]).length := by
          simp only [List.length_append, List.length_singleton]
          omega
        have hg := expectedResults_get config (t0 + config.windowSeconds * 1000)
          (ts ++ [tLast]).length 1 j hj
        refine ⟨{ allowed := decide (1 + j + 1 ≤ config.maxRequests),
                  remaining := max 0 ((config.maxRequests : Int) -
                    (((1 : Nat) : Int) + ((j : Nat) : Int) + 1)),
                  resetAt := t0 + config.windowSeconds * 1000 }, ?_, ?_⟩
        · rw [hrun]
          simp only [List.get?_cons_succ]
          exact hg
        · dsimp only
          rw [decide_eq_true_eq]
          omega
    · rw [hrun]
      have hm : config.maxRequests = ts.length + 1 := hlen.symm
      rw [hm]
      simp only [List.get?_cons_succ]
      have hget := expectedResults_get config (t0 + config.windowSeconds * 1000)
        (ts ++ [tLast]).length 1 ts.length
        (by simp only [List.length_append, List.length_singleton]; omega)
      rw [hget]
      simp only [Option.some_inj, RateLimitResult.mk.injEq]
      refine ⟨?_, ?_, trivial⟩
      · rw [decide_eq_false_iff_not]
        omega
      · push_cast
        omega

/-- C2 witness: both parts of the amended claim instantiated at concrete
inputs (a first check against maxRequests 2, and a 2-request run against
maxRequests 1 whose second request is rejected). -/
theorem C2_witness :
    (∃ d : RateLimitData,
       (checkRateLimit { maxRequests := 2, windowSeconds := 1 } 0
           { entry := none, failing := false }).cache.entry = some d ∧
       (checkRateLimit { maxRequests := 2, windowSeconds := 1 } 0
           { entry := none, failing := false }).res.allowed =
         decide (d.count ≤ ({ maxRequests := 2, windowSeconds := 1 } : RateLimitConfig).maxRequests) ∧
       (checkRateLimit { maxRequests := 2, windowSeconds := 1 } 0
           { entry := none, failing := false }).res.remaining =
         max 0 (((({ maxRequests := 2, windowSeconds := 1 } : RateLimitConfig).maxRequests : Nat) : Int)
           - (d.count : Int)) ∧
       (∀ d0, ({ entry := none, failing := false } : RLCacheState).entry = some d0 →
          d0.resetAt ≤ 0 →
          d = { count := 1,
                resetAt := 0 + ({ maxRequests := 2, windowSeconds := 1 } : RateLimitConfig).windowSeconds * 1000 })) ∧
    ((∀ i, i < ({ maxRequests := 1, windowSeconds := 1 } : RateLimitConfig).maxRequests →
        ∃ res, (runChecks { maxRequests := 1, windowSeconds := 1 }
                  { entry := none, failing := false } (0 :: (([] : List Nat) ++ [5]))).1.get? i =
            some res ∧ res.allowed = true) ∧
     (runChecks { maxRequests := 1, windowSeconds := 1 }
        { entry := none, failing := false } (0 :: (([] : List Nat) ++ [5]))).1.get?
          ({ maxRequests := 1, windowSeconds := 1 } : RateLimitConfig).maxRequests =
       some { allowed := false, remaining := 0,
              resetAt := 0 + ({ maxRequests := 1, windowSeconds := 1 } : RateLimitConfig).windowSeconds * 1000 }) :=
  ⟨C2_theorem.1 { maxRequests := 2, windowSeconds := 1 } 0
      { entry := none, failing := false } (by decide) rfl,
   C2_theorem.2 { maxRequests := 1, windowSeconds := 1 } 0 5 [] (by decide) (by decide)
      (by intro t ht; cases ht) (by decide)⟩

/-- C8: when the backing cache throws, checkRateLimit catches the error,
logs it, and fails open: it returns allowed = true with full remaining and
a fresh window end, leaves the cache cell untouched, and surfaces no error
to the caller. -/
theorem C8_theorem (config : RateLimitConfig) (now : Nat) (st : RLCacheState)
    (hfail : st.failing = true) :
    checkRateLimit config now st =
      { res := { allowed := true, remaining := (config.maxRequests : Int),
                 resetAt := now + config.windowSeconds * 1000 },
        cache := st, loggedError := true } := by
  unfold checkRateLimit rlCacheGet
  simp [hfail, Bind.bind, Except.bind]

/-- C8 witness: a check against a failing cache at a concrete input fails
open. -/
theorem C8_witness :
    checkRateLimit { maxRequests := 5, windowSeconds := 60 } 1234
        { entry := none, failing := true } =
      { res := { allowed := true, remaining := (((5 : Nat)) : Int),
                 resetAt := 1234 + 60 * 1000 },
        cache := { entry := none, failing := true }, loggedError := true } :=
  C8_theorem { maxRequests := 5, windowSeconds := 60 } 1234
    { entry := none, failing := true } rfl

/-! ## Tiered cache (CacheService, src/unnamed/part_004) -/

/-- A value as stored in the distributed (Redis) tier: either the
serialization of a cached value (JSON.stringify output) or a corrupted
string that JSON.parse cannot decode. -/
inductive StoredVal
| enc (v : Nat)
| corrupt (s : String)
deriving DecidableEq

/-- JSON.parse of a stored distributed string, abstracted to the codec
property the code relies on: values written by JSON.stringify decode to
themselves, corrupted strings fail to decode. -/
def decodeStored : StoredVal → Option Nat
  | StoredVal.enc v => some v
  | StoredVal.corrupt _ => none

/-- The two cache tiers and the distributed tier's health: memory is the
in-process NodeCache (stores values directly), redis stores serialized
strings; redisAvailable models isRedisAvailable(), redisFailing models
commands throwing.  TTL expiry is not modelled: an entry present in a tier
stands for an unexpired entry. -/
structure CacheState where
  memory : List (String × Nat)
  redis : List (String × StoredVal)
  redisAvailable : Bool
  redisFailing : Bool
deriving DecidableEq

/-- CacheOptions from src/unnamed/part_004 (callers pass the merge of
defaultOptions with their overrides, so all fields are present). -/
structure CacheOptions where
  memoryTTL : Nat
  redisTTL : Nat
  skipMemory : Bool
  skipRedis : Bool
deriving DecidableEq

/-- defaultOptions from src/unnamed/part_004. -/
def defaultOptions : CacheOptions :=
  { memoryTTL := 300, redisTTL := 3600, skipMemory := false, skipRedis := false }

/-- The full effect of a CacheService.get call: the returned value, the
tiers afterwards, whether the fetch function ran, and the warning logs
emitted. -/
structure GetOutcome where
  value : Nat
  state : CacheState
  fetchInvoked : Bool
  warnings : List String
deriving DecidableEq

/-- Level 3 of CacheService.get: run the fetch function (modelled as the
pure value fetchVal), write the result to the Redis tier when enabled and
available (a failing setex is caught and logged) and to the memory tier
when enabled, and return it. -/
def cacheFetchAndStore (st : CacheState) (key : String) (fetchVal : Nat)
    (opts : CacheOptions) (ws : List String) : GetOutcome :=
  let p : CacheState × List String :=
    if !opts.skipRedis && st.redisAvailable then
      if st.redisFailing then (st, ws ++ ["Redis cache set failed"])
      else ({ st with redis := (key, StoredVal.enc fetchVal) :: st.redis }, ws)
    else (st, ws)
  let st2 := if opts.skipMemory then p.1
             else { p.1 with memory := (key, fetchVal) :: p.1.memory }
  { value := fetchVal, state := st2, fetchInvoked := true, warnings := p.2 }

/-- CacheService.get from src/unnamed/part_004 lines 193-285: memory tier
first, then the Redis tier when enabled and available (a throwing get is
caught with a warning and falls through; a present value that fails to
decode is warned about and deleted from Redis before falling through; a
decoded hit is backfilled into memory), and finally the fetch function
with write-back to both tiers. -/
def cacheGet (st : CacheState) (key : String) (fetchVal : Nat)
    (opts : CacheOptions) : GetOutcome :=
  match (if opts.skipMemory then none else st.memory.lookup key) with
  | some v => { value := v, state := st, fetchInvoked := false, warnings := [] }
  | none =>
    if !opts.skipRedis && st.redisAvailable then
      if st.redisFailing then
        cacheFetchAndStore st key fetchVal opts ["Redis get failed, falling back to fetch"]
      else
        match st.redis.lookup key with
        | some sv =>
          match decodeStored sv with
          | some v =>
            { value := v,
              state := if opts.skipMemory then st
                       else { st with memory := (key, v) :: st.memory },
              fetchInvoked := false, warnings := [] }
          | none =>
            cacheFetchAndStore
              { st with redis := st.redis.filter (fun q => q.1 != key) }
              key fetchVal opts ["Redis cache value parse failed, invalidating"]
        | none => cacheFetchAndStore st key fetchVal opts []
    else cacheFetchAndStore st key fetchVal opts []

/-- The effect of a CacheService.set call: the tiers afterwards and the
warning logs emitted. -/
structure SetOutcome where
  state : CacheState
  warnings : List String
deriving DecidableEq

/-- CacheService.set from src/unnamed/part_004 lines 290-325: write the
memory tier when enabled, then the Redis tier when enabled and available;
a failing setex is caught and logged, never thrown. -/
def cacheSet (st : CacheState) (key : String) (v : Nat)
    (opts : CacheOptions) : SetOutcome :=
  let st1 := if opts.skipMemory then st
             else { st with memory := (key, v) :: st.memory }
  if !opts.skipRedis && st1.redisAvailable then
    if st1.redisFailing then { state := st1, warnings := ["Redis set failed"] }
    else { state := { st1 with redis := (key, StoredVal.enc v) :: st1.redis },
           warnings := [] }
  else { state := st1, warnings := [] }

/-- C7: a get with the configured (default) options immediately after a
set of the same key returns the set value from the memory tier without
invoking the fetch function, whatever the state of the distributed tier. -/
theorem C7_theorem (st : CacheState) (key : String) (v fetchVal : Nat) :
    (cacheGet (cacheSet st key v defaultOptions).state key fetchVal defaultOptions).value = v ∧
    (cacheGet (cacheSet st key v defaultOptions).state key fetchVal
        defaultOptions).fetchInvoked = false := by
  obtain ⟨mem, red, avail, fl⟩ := st
  cases avail <;> cases fl <;>
    simp [cacheSet, cacheGet, defaultOptions, List.lookup]

/-- C6: the distributed tier can never fail a get or set call: a corrupted
stored value is warned about, deleted, and replaced via the fetch result;
an unavailable distributed tier degrades a get to a fetch without touching
it; a throwing distributed get degrades to a fetch with a warning; and a
throwing distributed write during set is swallowed with a warning while
the memory write still lands. -/
theorem C6_theorem :
    (∀ (st : CacheState) (key : String) (fetchVal : Nat) (s : String),
       st.memory.lookup key = none → st.redisAvailable = true → st.redisFailing = false →
       st.redis.lookup key = some (StoredVal.corrupt s) →
       (cacheGet st key fetchVal defaultOptions).value = fetchVal ∧
       (cacheGet st key fetchVal defaultOptions).fetchInvoked = true ∧
       (cacheGet st key fetchVal defaultOptions).state.redis.lookup key =
         some (StoredVal.enc fetchVal) ∧
       "Redis cache value parse failed, invalidating" ∈
         (cacheGet st key fetchVal defaultOptions).warnings) ∧
    (∀ (st : CacheState) (key : String) (fetchVal : Nat),
       st.memory.lookup key = none → st.redisAvailable = false →
       (cacheGet st key fetchVal defaultOptions).value = fetchVal ∧
       (cacheGet st key fetchVal defaultOptions).fetchInvoked = true ∧
       (cacheGet st key fetchVal defaultOptions).state.redis = st.redis) ∧
    (∀ (st : CacheState) (key : String) (fetchVal : Nat),
       st.memory.lookup key = none → st.redisAvailable = true → st.redisFailing = true →
       (cacheGet st key fetchVal defaultOptions).value = fetchVal ∧
       (cacheGet st key fetchVal defaultOptions).fetchInvoked = true ∧
       "Redis get failed, falling back to fetch" ∈
         (cacheGet st key fetchVal defaultOptions).warnings) ∧
    (∀ (st : CacheState) (key : String) (v : Nat),
       st.redisFailing = true →
       (cacheSet st key v defaultOptions).state.memory.lookup key = some v ∧
       (cacheSet st key v defaultOptions).state.redis = st.redis ∧
       (st.redisAvailable = true →
         "Redis set failed" ∈ (cacheSet st key v defaultOptions).warnings)) := by
  refine ⟨?_, ?_, ?_, ?_⟩
  · intro st key fetchVal s hmem havail hfail hred
    obtain ⟨mem, red, avail, fl⟩ := st
    simp only at hmem havail hfail hred
    subst havail
    subst hfail
    simp [cacheGet, cacheFetchAndStore, defaultOptions, hmem, hred, decodeStored, List.lookup]
  · intro st key fetchVal hmem havail
    obtain ⟨mem, red, avail, fl⟩ := st
    simp only at hmem havail
    subst havail
    simp [cacheGet, cacheFetchAndStore, defaultOptions, hmem]
  · intro st key fetchVal hmem havail hfail
    obtain ⟨mem, red, avail, fl⟩ := st
    simp only at hmem havail hfail
    subst havail
    subst hfail
    simp [cacheGet, cacheFetchAndStore, defaultOptions, hmem]
  · intro st key v hfail
    obtain ⟨mem, red, avail, fl⟩ := st
    simp only at hfail
    subst hfail
    cases avail with
    | true => simp [cacheSet, defaultOptions, List.lookup]
    | false => simp [cacheSet, defaultOptions, List.lookup]

/-- Concrete cache state with a corrupted distributed entry under key k. -/
def c6CorruptState : CacheState :=
  { memory := [], redis := [("k", StoredVal.corrupt "xx")],
    redisAvailable := true, redisFailing := false }

/-- Concrete cache state with the distributed tier unavailable. -/
def c6DownState : CacheState :=
  { memory := [], redis := [], redisAvailable := false, redisFailing := false }

/-- Concrete cache state with the distributed tier throwing on commands. -/
def c6FailingState : CacheState :=
  { memory := [], redis := [], redisAvailable := true, redisFailing := true }

/-- C6 witness: the four parts instantiated at concrete states (a corrupt
entry under key k, an unavailable tier, a throwing get, and a throwing
write). -/
theorem C6_witness :
    ((cacheGet c6CorruptState "k" 42 defaultOptions).value = 42 ∧
     (cacheGet c6CorruptState "k" 42 defaultOptions).fetchInvoked = true ∧
     (cacheGet c6CorruptState "k" 42 defaultOptions).state.redis.lookup "k" =
       some (StoredVal.enc 42) ∧
     "Redis cache value parse failed, invalidating" ∈
       (cacheGet c6CorruptState "k" 42 defaultOptions).warnings) ∧
    ((cacheGet c6DownState "k" 42 defaultOptions).value = 42 ∧
     (cacheGet c6DownState "k" 42 defaultOptions).fetchInvoked = true ∧
     (cacheGet c6DownState "k" 42 defaultOptions).state.redis = c6DownState.redis) ∧
    ((cacheGet c6FailingState "k" 42 defaultOptions).value = 42 ∧
     (cacheGet c6FailingState "k" 42 defaultOptions).fetchInvoked = true ∧
     "Redis get failed, falling back to fetch" ∈
       (cacheGet c6FailingState "k" 42 defaultOptions).warnings) ∧
    ((cacheSet c6FailingState "k" 7 defaultOptions).state.memory.lookup "k" = some 7 ∧
     (cacheSet c6FailingState "k" 7 defaultOptions).state.redis = c6FailingState.redis ∧
     (c6FailingState.redisAvailable = true →
       "Redis set failed" ∈ (cacheSet c6FailingState "k" 7 defaultOptions).warnings)) :=
  ⟨C6_theorem.1 c6CorruptState "k" 42 "xx" (by decide) rfl rfl (by decide),
   C6_theorem.2.1 c6DownState "k" 42 (by decide) rfl,
   C6_theorem.2.2.1 c6FailingState "k" 42 (by decide) rfl rfl,
   C6_theorem.2.2.2 c6FailingState "k" 7 rfl⟩

/-! ## CSRF guard (csrfProtection middleware, src/FINAL-CLEAN-SUMMARY.md) -/

/-- The request fields the csrfProtection middleware inspects; headers that
may be absent are Options. -/
structure CsrfRequest where
  method : String
  url : Option String
  csrfToken : Option String
  sessionUserId : Option String
  forwardedFor : Option String
  remoteAddress : Option String
deriving DecidableEq

/-- CSRFConfig from the csrfProtection middleware (after its defaults are
applied). -/
structure CSRFConfig where
  skipPaths : List String
  methods : List String
  errorMessage : String
deriving DecidableEq

/-- DEFAULT_METHODS from the csrfProtection middleware: the state-changing
methods protected by default. -/
def DEFAULT_METHODS : List String := ["POST", "PUT", "DELETE", "PATCH"]

/-- A logSecurity event entry: the event label and the request path,
method, and originating address recorded with it. -/
structure SecurityLogEntry where
  event : String
  path : Option String
  method : String
  ip : Option String
deriving DecidableEq

/-- getSessionId from the csrfProtection middleware: the session user id
when truthy, else an ip-prefixed fallback built from the first
forwarded-for element or the socket address. -/
def getSessionId (req : CsrfRequest) : String :=
  if jsTruthy req.sessionUserId then req.sessionUserId.getD ""
  else
    "ip:" ++
      (if jsTruthy req.forwardedFor then
        ((req.forwardedFor.getD "").splitOn ",").headD ""
      else
        match req.remoteAddress with
        | some s => if s = "" then "unknown" else s
        | none => "unknown")

/-- JS String.prototype.includes on character lists: whether the needle
occurs as a contiguous substring of the haystack. -/
def charsInclude (needle : List Char) : List Char → Bool
  | [] => needle.isEmpty
  | c :: t => needle.isPrefixOf (c :: t) || charsInclude needle t

/-- JS String.prototype.includes. -/
def stringIncludes (hay needle : String) : Bool :=
  charsInclude needle.data hay.data

/-- The observable result of the csrfProtection middleware on one request:
either next() runs the wrapped handler, or the middleware responds 403
with the structured error body after emitting the security log entry. -/
inductive CsrfOutcome
| proceed
| reject (status : Nat) (error : String) (message : String) (log : SecurityLogEntry)
deriving DecidableEq

/-- csrfProtection from the reference middleware source
(src/FINAL-CLEAN-SUMMARY.md lines 548-612): non-protected methods and
configured skip paths call straight through; a JS-falsy x-csrf-token
header yields a 403 with a CSRF-token-missing security log; a present
token failing CSRFProtection.verifyToken against the session identity
yields a 403 with a validation-failed security log; otherwise the request
proceeds.  verifyToken is abstracted as the parameter verify. -/
def csrfProtection (verify : String → String → Bool) (cfg : CSRFConfig)
    (req : CsrfRequest) : CsrfOutcome :=
  if cfg.methods.contains req.method = false then CsrfOutcome.proceed
  else if cfg.skipPaths.any (fun sp => stringIncludes (req.url.getD "") sp) then
    CsrfOutcome.proceed
  else if jsTruthy req.csrfToken = false then
    CsrfOutcome.reject 403 "CSRF Validation Failed" "CSRF token is required"
      { event := "CSRF token missing", path := req.url, method := req.method,
        ip := jsOrString req.forwardedFor req.remoteAddress }
  else if verify (req.csrfToken.getD "") (getSessionId req) = false then
    CsrfOutcome.reject 403 "CSRF Validation Failed" cfg.errorMessage
      { event := "CSRF token validation failed", path := req.url, method := req.method,
        ip := jsOrString req.forwardedFor req.remoteAddress }
  else CsrfOutcome.proceed

/-- C9: with the default protected methods, a protected-method request on a
non-exempt path is rejected with 403 and the structured error body without
the handler running, both when the x-csrf-token header is absent and when
it fails verification against the session identity; each rejection emits a
security log entry carrying the request path, method, and originating
address. -/
theorem C9_theorem (verify : String → String → Bool) (cfg : CSRFConfig) (req : CsrfRequest)
    (hm : cfg.methods = DEFAULT_METHODS)
    (hmeth : DEFAULT_METHODS.contains req.method = true)
    (hskip : cfg.skipPaths.any (fun sp => stringIncludes (req.url.getD "") sp) = false) :
    (jsTruthy req.csrfToken = false →
      csrfProtection verify cfg req =
        CsrfOutcome.reject 403 "CSRF Validation Failed" "CSRF token is required"
          { event := "CSRF token missing", path := req.url, method := req.method,
            ip := jsOrString req.forwardedFor req.remoteAddress }) ∧
    (jsTruthy req.csrfToken = true →
      verify (req.csrfToken.getD "") (getSessionId req) = false →
      csrfProtection verify cfg req =
        CsrfOutcome.reject 403 "CSRF Validation Failed" cfg.errorMessage
          { event := "CSRF token validation failed", path := req.url, method := req.method,
            ip := jsOrString req.forwardedFor req.remoteAddress }) := by
  constructor
  · intro htok
    unfold csrfProtection
    rw [hm, hmeth, hskip, htok]
    simp
  · intro htok hver
    unfold csrfProtection
    rw [hm, hmeth, hskip, htok, hver]
    simp

/-- The CSRF configuration used by the C9 witness. -/
def c9Config : CSRFConfig :=
  { skipPaths := [], methods := DEFAULT_METHODS, errorMessage := "Invalid CSRF token" }

/-- A POST request with no x-csrf-token header. -/
def c9MissingReq : CsrfRequest :=
  { method := "POST", url := some "/api/orders", csrfToken := none,
    sessionUserId := some "u1", forwardedFor := some "1.2.3.4", remoteAddress := none }

/-- A DELETE request carrying a token that fails verification. -/
def c9BadReq : CsrfRequest :=
  { method := "DELETE", url := some "/api/orders", csrfToken := some "tok",
    sessionUserId := some "u1", forwardedFor := none, remoteAddress := some "9.9.9.9" }

/-- C9 witness: both rejection branches at concrete requests under a
verifier that rejects every token. -/
theorem C9_witness :
    csrfProtection (fun _ _ => false) c9Config c9MissingReq =
      CsrfOutcome.reject 403 "CSRF Validation Failed" "CSRF token is required"
        { event := "CSRF token missing", path := some "/api/orders", method := "POST",
          ip := some "1.2.3.4" } ∧
    csrfProtection (fun _ _ => false) c9Config c9BadReq =
      CsrfOutcome.reject 403 "CSRF Validation Failed" "Invalid CSRF token"
        { event := "CSRF token validation failed", path := some "/api/orders",
          method := "DELETE", ip := some "9.9.9.9" } :=
  ⟨(C9_theorem (fun _ _ => false) c9Config c9MissingReq rfl (by decide) (by decide)).1 rfl,
   (C9_theorem (fun _ _ => false) c9Config c9BadReq rfl (by decide) (by decide)).2
     (by decide) rfl⟩
